import Mathlib

/-!
Verification of the CHRONOS job-scheduling engine.

This file embeds, as executable Lean definitions, the core scheduling
logic of the repository: the atomic job-claim query of
`src/backend/scheduler/JobPicker.js`, the stale-lock sweep, the retry
and error-classification logic of `src/backend/services/RetryManager.js`,
the failure/completion handlers of the `JobExecutor`, the dependency
fan-out methods of `src/backend/models/Job.js`, and the pre-save hook.
Timestamps are modelled as integers (milliseconds since epoch); the
MongoDB store is a list of job documents; `findOneAndUpdate` with a sort
becomes selection of the first sort-minimal matching document followed by
an update keyed on its id.
-/

namespace Chronos

/-- Job lifecycle statuses, from the `status` enum of `Job.js`. -/
inductive Status
  | PENDING | SCHEDULED | QUEUED | RUNNING | COMPLETED
  | FAILED | PAUSED | CANCELLED | WAITING | BLOCKED
deriving DecidableEq, Repr

/-- Job kinds, from the `jobType` enum of `Job.js`. -/
inductive JobType
  | ONE_TIME | RECURRING
deriving DecidableEq, Repr

/-- Retry strategies, from `RETRY_STRATEGY` in `RetryManager.js`. -/
inductive Strategy
  | fixed | exponential | linear | fibonacci
deriving DecidableEq, Repr

/-- A job document, with the fields of the schema in `Job.js` that the
scheduling engine reads or writes.  Times are ms since epoch. -/
structure Job where
  id : Nat
  jobType : JobType := JobType.ONE_TIME
  scheduleTime : Option Int := none
  cronExpression : Option String := none
  interval : Option Int := none
  nextRunAt : Option Int := none
  lastRunAt : Option Int := none
  status : Status := Status.PENDING
  dependsOnJobId : Option Nat := none
  priority : Int := 5
  retryCount : Nat := 0
  maxRetries : Nat := 3
  retryDelay : Int := 60000
  useExponentialBackoff : Bool := true
  nextRetryAt : Option Int := none
  lastError : Option String := none
  lastErrorStack : Option String := none
  lockedBy : Option String := none
  lockedAt : Option Int := none
  result : Option String := none
  executionDuration : Option Int := none
  expireAt : Option Int := none
  isActive : Bool := true
  endTime : Option Int := none
deriving DecidableEq, Repr

/-- Whether `pat` occurs as a contiguous run inside `l`
(JavaScript `String.prototype.includes` over the character list). -/
def listContains (pat : List Char) : List Char → Bool
  | [] => pat.isEmpty
  | c :: rest => List.isPrefixOf pat (c :: rest) || listContains pat rest

/-- JavaScript `message.includes(pat)` on strings. -/
def strIncludes (s pat : String) : Bool :=
  listContains pat.toList s.toList

/-- JavaScript `message.toLowerCase()` (ASCII case folding suffices for
the keyword lists the engine uses). -/
def jsToLower (s : String) : String :=
  String.mk (s.toList.map Char.toLower)

namespace RetryManager

/-- The non-retryable keyword list of `RetryManager.isRetryableError`. -/
def nonRetryable : List String :=
  ["validation", "invalid", "not found", "unauthorized",
   "forbidden", "no handler", "syntax error"]

/-- `RetryManager.isRetryableError`: lowercase the message and return
false iff it contains one of the non-retryable keywords. -/
def isRetryableError (message : String) : Bool :=
  let m := jsToLower message
  !(nonRetryable.any (fun keyword => strIncludes m keyword))

/-- `RetryManager.classifyError`: first-match classification in the
order the source checks the keywords. -/
def classifyError (message : String) : String :=
  let m := jsToLower message
  if strIncludes m "timeout" then "TIMEOUT"
  else if strIncludes m "network" || strIncludes m "econnrefused" then "NETWORK_ERROR"
  else if strIncludes m "validation" then "VALIDATION_ERROR"
  else if strIncludes m "not found" then "NOT_FOUND"
  else if strIncludes m "handler" then "HANDLER_ERROR"
  else if strIncludes m "memory" then "MEMORY_ERROR"
  else if strIncludes m "rate limit" then "RATE_LIMIT"
  else if strIncludes m "permission" || strIncludes m "forbidden" then "PERMISSION_ERROR"
  else "UNKNOWN_ERROR"

/-- `RetryManager.fibonacci`: `n <= 1` returns 1, then the loop
`[a, b] = [b, a + b]` from `i = 2` to `n` starting at `a = b = 1`. -/
def fibLoop : Nat → Nat × Nat
  | 0 => (1, 1)
  | n + 1 => let p := fibLoop n; (p.2, p.1 + p.2)

def fibonacci (n : Nat) : Nat :=
  if n ≤ 1 then 1 else (fibLoop (n - 1)).2

/-- `RetryManager.addJitter`: jitter is `(r * 2 - 1) * (delay * jitterFactor)`
for `r = Math.random()`, and the result is clamped at 0 from below. -/
def addJitter (delay : ℚ) (jitterFactor : ℚ) (r : ℚ) : ℚ :=
  let jitterRange := delay * jitterFactor
  let jitter := (r * 2 - 1) * jitterRange
  max 0 (delay + jitter)

/-- The `switch (strategy)` of `RetryManager.calculateDelay`: the raw
per-strategy delay before the cap and the jitter (the `default` case of
the switch coincides with the exponential case). -/
def codeDelay (attemptNumber : Nat) (baseDelay : Int) (strategy : Strategy) : Int :=
  match strategy with
  | Strategy.fixed => baseDelay
  | Strategy.exponential => baseDelay * 2 ^ attemptNumber
  | Strategy.linear => baseDelay * (attemptNumber + 1)
  | Strategy.fibonacci => baseDelay * (fibonacci (attemptNumber + 1) : Int)

/-- `RetryManager.calculateDelay` with the job/config options already
resolved (`baseDelay`, `strategy`, `maxDelay` as the source resolves
them via `jobConfig.x || this.config.x`), the random draw `r` made
explicit, and `Math.round` as rounding to the nearest integer. -/
def calculateDelay (attemptNumber : Nat) (baseDelay maxDelay : Int)
    (strategy : Strategy) (jitterEnabled : Bool) (jitterFactor r : ℚ) : Int :=
  let clamped : Int := min (codeDelay attemptNumber baseDelay strategy) maxDelay
  if jitterEnabled then round (addJitter (clamped : ℚ) jitterFactor r)
  else round ((clamped : ℚ))

end RetryManager

/-- `fib(k)` with `fib(1) = fib(2) = 1`, exactly as the spec words the
fibonacci backoff table (`fib(0)` is irrelevant; we set it to 0). -/
def specFib : Nat → Nat
  | 0 => 0
  | 1 => 1
  | 2 => 1
  | n + 3 => specFib (n + 1) + specFib (n + 2)

/-- `updateOne({_id: targetId}, update)`: apply `f` to the document with
the given id, leave every other document unchanged. -/
def updateById (store : List Job) (targetId : Nat) (f : Job → Job) : List Job :=
  store.map fun y => if y.id = targetId then f y else y

namespace RetryManager

/-- The worker-level retry configuration (`DEFAULT_CONFIG` merged with
the options `WorkerServiceWithRetry` passes in). -/
structure RetryConfig where
  maxRetries : Nat := 3
  baseDelay : Int := 60000
  maxDelay : Int := 3600000
  strategy : Strategy := Strategy.exponential
  jitterEnabled : Bool := true
  jitterFactor : ℚ := 1/5
deriving DecidableEq, Repr

/-- `RetryManager.handleFailure`, as the update it writes to the failed
job document.  `currentAttempt = retryCount + 1`; the job retries only
when `currentAttempt < maxRetries` and the error is retryable.  The job
schema always materialises `maxRetries` and `retryDelay` (with their
defaults) and has no `retryStrategy`/`maxRetryDelay` fields, so
`job.maxRetries ?? config.maxRetries` resolves to the job field, the
strategy and cap resolve to the worker config, and
`jobConfig.retryDelay || baseDelay` falls back only on a zero value.
`r` is the random draw used by the jitter. -/
def handleFailure (cfg : RetryConfig) (r : ℚ) (now : Int) (j : Job)
    (message stack : String) : Job :=
  let currentAttempt := j.retryCount + 1
  let maxRetries := j.maxRetries
  let canRetry := decide (currentAttempt < maxRetries) && isRetryableError message
  let base := if j.retryDelay = 0 then cfg.baseDelay else j.retryDelay
  let upd := { j with lastRunAt := some now, lastError := some message,
                      lastErrorStack := some stack, lockedBy := none,
                      lockedAt := none, retryCount := currentAttempt }
  if canRetry then
    let delay := calculateDelay (currentAttempt - 1) base cfg.maxDelay
      cfg.strategy cfg.jitterEnabled cfg.jitterFactor r
    { upd with status := Status.SCHEDULED, nextRunAt := some (now + delay),
               nextRetryAt := some (now + delay) }
  else
    { upd with status := Status.FAILED }

end RetryManager

namespace JobExecutor

/-- `JobExecutor.classifyError` (the variant in the executor file):
same first-match scheme but without the memory / rate-limit /
permission rules. -/
def classifyError (message : String) : String :=
  let m := jsToLower message
  if strIncludes m "timeout" then "TIMEOUT"
  else if strIncludes m "network" || strIncludes m "econnrefused" then "NETWORK_ERROR"
  else if strIncludes m "validation" then "VALIDATION_ERROR"
  else if strIncludes m "not found" then "NOT_FOUND"
  else if strIncludes m "handler" then "HANDLER_ERROR"
  else "UNKNOWN_ERROR"

/-- `JobExecutor.handleFailure`, as the update it writes to the failed
job document.  `newRetryCount = retryCount + 1`; the job retries iff
`newRetryCount < maxRetries` — retryability of the error is never
consulted.  `job.retryDelay || 60000` falls back only on a zero value;
the exponential backoff uses the pre-increment `retryCount`. -/
def handleFailure (now : Int) (j : Job) (message stack : String) : Job :=
  let newRetryCount := j.retryCount + 1
  let canRetry := decide (newRetryCount < j.maxRetries)
  let upd := { j with lastRunAt := some now, lastError := some message,
                      lastErrorStack := some stack, lockedBy := none,
                      lockedAt := none, retryCount := newRetryCount }
  if canRetry then
    let base := if j.retryDelay = 0 then (60000 : Int) else j.retryDelay
    let retryDelay := if j.useExponentialBackoff then base * 2 ^ j.retryCount else base
    { upd with status := Status.SCHEDULED, nextRunAt := some (now + retryDelay),
               nextRetryAt := some (now + retryDelay) }
  else
    { upd with status := Status.FAILED }

end JobExecutor

namespace JobPicker

/-- The claim filter of `JobPicker.pickOne` (also used verbatim by
`WorkerServiceWithRetry.pickJobs`): `status = SCHEDULED`, `nextRunAt
<= now`, `isActive`, and lock absent or stale.  A missing `nextRunAt`
or `lockedAt` never satisfies a `$lte`/`$lt` comparison in MongoDB. -/
def dueMatch (now staleThreshold : Int) (j : Job) : Bool :=
  j.status == Status.SCHEDULED
  && (match j.nextRunAt with | some t => decide (t ≤ now) | none => false)
  && j.isActive
  && (j.lockedBy == none || j.lockedAt == none ||
      (match j.lockedAt with | some la => decide (la < staleThreshold) | none => false))

/-- Ascending comparison on `nextRunAt` (MongoDB sorts missing values
first on an ascending sort). -/
def optLe : Option Int → Option Int → Bool
  | none, _ => true
  | some _, none => false
  | some x, some y => decide (x ≤ y)

/-- The sort `{priority: 1, nextRunAt: 1}`: ascending priority, ties
broken by ascending `nextRunAt`. -/
def sortLe (a b : Job) : Bool :=
  decide (a.priority < b.priority)
  || (decide (a.priority = b.priority) && optLe a.nextRunAt b.nextRunAt)

/-- The document `findOneAndUpdate` acts on: the first sort-minimal
element of the matching documents. -/
def selectFirstMin : List Job → Option Job
  | [] => none
  | j :: rest =>
    match selectFirstMin rest with
    | none => some j
    | some m => if sortLe j m then some j else some m

/-- `JobPicker.pickOne` (and one iteration of
`WorkerServiceWithRetry.pickJobs`): atomically claim the best due job,
setting `status = QUEUED`, `lockedBy = workerId`, `lockedAt = now`, and
return the updated document (`new: true`); when nothing matches the
store is untouched and nothing is returned. -/
def pickOne (workerId : String) (lockTimeout now : Int) (store : List Job) :
    Option Job × List Job :=
  let staleThreshold := now - lockTimeout
  match selectFirstMin (store.filter (dueMatch now staleThreshold)) with
  | none => (none, store)
  | some j =>
    (some { j with status := Status.QUEUED, lockedBy := some workerId,
                   lockedAt := some now },
     updateById store j.id fun y =>
       { y with status := Status.QUEUED, lockedBy := some workerId,
                lockedAt := some now })

/-- A sequence of `pickOne` steps by arbitrary workers at arbitrary
times, as the store evolution they produce. -/
def applyPicks (lockTimeout : Int) (trace : List (String × Int)) (store : List Job) :
    List Job :=
  trace.foldl (fun st p => (pickOne p.1 lockTimeout p.2 st).2) store

/-- The match condition of `JobPicker.recoverStaleJobs`: status QUEUED
or RUNNING, `lockedAt < cutoff`, `lockedBy != null`. -/
def staleMatch (cutoff : Int) (j : Job) : Bool :=
  (j.status == Status.QUEUED || j.status == Status.RUNNING)
  && (match j.lockedAt with | some la => decide (la < cutoff) | none => false)
  && !(j.lockedBy == none)

/-- `JobPicker.recoverStaleJobs(threshold)`: an `updateMany` resetting
every stale locked job to SCHEDULED, clearing the lock and incrementing
`retryCount`. -/
def recoverStaleJobs (threshold now : Int) (store : List Job) : List Job :=
  let cutoff := now - threshold
  store.map fun j =>
    if staleMatch cutoff j then
      { j with status := Status.SCHEDULED, lockedBy := none, lockedAt := none,
               retryCount := j.retryCount + 1 }
    else j

/-- `JobPicker.release(job)`: conditional on `lockedBy = workerId`,
reset the job with the given id to SCHEDULED and clear the lock. -/
def release (workerId : String) (jobId : Nat) (store : List Job) : List Job :=
  store.map fun y =>
    if y.id = jobId && y.lockedBy == some workerId then
      { y with status := Status.SCHEDULED, lockedBy := none, lockedAt := none }
    else y

/-- `JobPicker.releaseAll` (and `WorkerServiceWithRetry.releaseAllJobs`):
reset everything this worker holds to SCHEDULED. -/
def releaseAll (workerId : String) (store : List Job) : List Job :=
  store.map fun y =>
    if y.lockedBy == some workerId then
      { y with status := Status.SCHEDULED, lockedBy := none, lockedAt := none }
    else y

end JobPicker

namespace JobModel

/-- The `canRetry` virtual of `Job.js`: `retryCount < maxRetries`. -/
def canRetry (j : Job) : Bool :=
  decide (j.retryCount < j.maxRetries)

/-- The `nextRetryDelay` virtual of `Job.js`. -/
def nextRetryDelay (j : Job) : Int :=
  if j.useExponentialBackoff then j.retryDelay * 2 ^ j.retryCount else j.retryDelay

/-- The document `markAsCompleted` saves for the parent itself: status
COMPLETED, result, duration, lock cleared, errors cleared, `expireAt =
now + 5 days`. -/
def completedDoc (now : Int) (res : String) (duration : Int) (parent : Job) : Job :=
  { parent with status := Status.COMPLETED, result := some res,
                executionDuration := some duration, lastRunAt := some now,
                lockedBy := none, lockedAt := none, lastError := none,
                lastErrorStack := none,
                expireAt := some (now + 5 * 24 * 60 * 60 * 1000) }

/-- `jobSchema.methods.markAsCompleted`: save the completed parent, then
transition every WAITING job that depends on it to SCHEDULED with
`nextRunAt = now`. -/
def markAsCompleted (now : Int) (res : String) (duration : Int) (parent : Job)
    (store : List Job) : List Job :=
  let afterSave := updateById store parent.id fun _ => completedDoc now res duration parent
  afterSave.map fun x =>
    if x.dependsOnJobId == some parent.id && x.status == Status.WAITING then
      { x with status := Status.SCHEDULED, nextRunAt := some now }
    else x

/-- The parent document after the field updates at the top of
`markAsFailed` (incremented `retryCount`, recorded error, cleared
lock), before the retry decision. -/
def preFailDoc (now : Int) (parent : Job) (message stack : String) : Job :=
  { parent with retryCount := parent.retryCount + 1,
                lastError := some message, lastErrorStack := some stack,
                lastRunAt := some now, lockedBy := none, lockedAt := none }

/-- The document `markAsFailed` saves for the parent: if the
(post-increment) `canRetry` virtual holds, back to SCHEDULED at
`now + nextRetryDelay`; otherwise FAILED. -/
def failedDoc (now : Int) (parent : Job) (message stack : String) : Job :=
  let p1 := preFailDoc now parent message stack
  if canRetry p1 then
    { p1 with status := Status.SCHEDULED,
              nextRetryAt := some (now + nextRetryDelay p1),
              nextRunAt := some (now + nextRetryDelay p1) }
  else { p1 with status := Status.FAILED }

/-- `jobSchema.methods.markAsFailed`: save the updated parent, and when
it ended FAILED transition every WAITING dependent to BLOCKED. -/
def markAsFailed (now : Int) (parent : Job) (message stack : String)
    (store : List Job) : List Job :=
  let p2 := failedDoc now parent message stack
  let afterSave := updateById store parent.id fun _ => p2
  if p2.status == Status.FAILED then
    afterSave.map fun x =>
      if x.dependsOnJobId == some parent.id && x.status == Status.WAITING then
        { x with status := Status.BLOCKED }
      else x
  else afterSave

/-- The `nextRunAt`/`status` block of the `jobSchema.pre('save')` hook
(the counter-based `jobId` allocation is not modelled): on a new
document without `nextRunAt`, a ONE_TIME job with a `scheduleTime` is
scheduled at it, and a RECURRING job is scheduled immediately at `now`
regardless of its `cronExpression` or `interval`. -/
def preSaveSchedule (isNew : Bool) (now : Int) (j : Job) : Job :=
  if isNew && j.nextRunAt == none then
    if j.jobType == JobType.ONE_TIME && !(j.scheduleTime == none) then
      { j with nextRunAt := j.scheduleTime, status := Status.SCHEDULED }
    else if j.jobType == JobType.RECURRING then
      let j1 := { j with status := Status.SCHEDULED }
      if j1.nextRunAt == none then { j1 with nextRunAt := some now } else j1
    else j
  else j

end JobModel

/-- `String.prototype.split(' ')` on a single-space separator. -/
def jsSplitAux (sep : Char) : List Char → List Char → List String
  | [], acc => [String.mk acc.reverse]
  | c :: rest, acc =>
    if c = sep then String.mk acc.reverse :: jsSplitAux sep rest []
    else jsSplitAux sep rest (c :: acc)

def jsSplit (s : String) (sep : Char) : List String :=
  jsSplitAux sep s.toList []

/-- `parseInt(s, 10)` for the plain decimal numerals the cron fields
carry (leading digits accumulated, parsing stops at the first
non-digit; NaN results are outside the inputs we evaluate). -/
def parseDigitsAux : List Char → Nat → Nat
  | [], acc => acc
  | c :: rest, acc =>
    if c.isDigit then parseDigitsAux rest (acc * 10 + (c.toNat - 48)) else acc

def jsParseInt (s : String) : Int :=
  (parseDigitsAux s.toList 0 : Int)

/-- JavaScript `Date` field accessors and setters over an epoch-ms
timestamp, for nonnegative UTC times.  `jsGetDate` returns the absolute
day index (it models `getDate`/`setDate` away from month boundaries,
which is where the theorems below evaluate it); `jsGetDay` is the
day-of-week with 0 = Sunday (day 0, 1970-01-01, was a Thursday). -/
def jsGetMilliseconds (t : Int) : Int := t % 1000

def jsGetSeconds (t : Int) : Int := t % 60000 / 1000

def jsGetMinutes (t : Int) : Int := t % 3600000 / 60000

def jsGetHours (t : Int) : Int := t % 86400000 / 3600000

def jsGetDate (t : Int) : Int := t / 86400000

def jsGetDay (t : Int) : Int := (t / 86400000 + 4) % 7

def jsSetMilliseconds (t v : Int) : Int := t - jsGetMilliseconds t + v

def jsSetSeconds (t v : Int) : Int := t - jsGetSeconds t * 1000 + v * 1000

def jsSetMinutes (t v : Int) : Int := t - jsGetMinutes t * 60000 + v * 60000

def jsSetHours (t v : Int) : Int := t - jsGetHours t * 3600000 + v * 3600000

def jsSetDate (t v : Int) : Int := t - jsGetDate t * 86400000 + v * 86400000

namespace JobExecutor

/-- `JobExecutor.getNextCronRun` — the simplified stand-in the source
ships (its own comment: "Simple implementation ... TODO: Replace with
proper cron-parser in production").  It reads only the minute and hour
fields, sets them on a copy of `from`, and, if the result is not in the
future, advances by a slash interval, one hour, or one day. -/
def getNextCronRun (cronExpression : String) (fromTime : Int) : Int :=
  let parts := jsSplit cronExpression ' '
  let minute := parts.getD 0 ""
  let hour := parts.getD 1 ""
  let next := fromTime
  let next :=
    if minute != "*" && !(strIncludes minute "/") then
      jsSetMilliseconds (jsSetSeconds (jsSetMinutes next (jsParseInt minute)) 0) 0
    else next
  let next :=
    if hour != "*" && !(strIncludes hour "/") then jsSetHours next (jsParseInt hour)
    else next
  if next ≤ fromTime then
    if strIncludes minute "/" then
      jsSetMinutes next (jsGetMinutes fromTime + jsParseInt ((jsSplit minute '/').getD 1 ""))
    else if hour == "*" then jsSetHours next (jsGetHours next + 1)
    else jsSetDate next (jsGetDate next + 1)
  else next

/-- `JobExecutor.calculateNextRun`: `now + interval` when the job has a
(truthy) interval, the cron stand-in when it has a (nonempty) cron
expression, otherwise nothing. -/
def calculateNextRun (now : Int) (j : Job) : Option Int :=
  let hasInterval := match j.interval with | some i => !(i == 0) | none => false
  if hasInterval then some (now + j.interval.getD 0)
  else
    match j.cronExpression with
    | some c => if c == "" then none else some (getNextCronRun c now)
    | none => none

end JobExecutor

/-- Modelled from the spec for comparison: the error-classification
table of spec section 4.4.2 in the spec's own rule order (timeout;
network; rate limit; memory; permission; validation; not found;
handler; otherwise unknown). -/
def specClassifyError (message : String) : String :=
  let m := jsToLower message
  if strIncludes m "timeout" then "TIMEOUT"
  else if strIncludes m "network" || strIncludes m "econnrefused" then "NETWORK_ERROR"
  else if strIncludes m "rate limit" then "RATE_LIMIT"
  else if strIncludes m "memory" then "MEMORY_ERROR"
  else if strIncludes m "permission" || strIncludes m "forbidden" then "PERMISSION_ERROR"
  else if strIncludes m "validation" then "VALIDATION_ERROR"
  else if strIncludes m "not found" then "NOT_FOUND"
  else if strIncludes m "handler" then "HANDLER_ERROR"
  else "UNKNOWN_ERROR"

/-- The claim's backoff table (spec section 4.4.3), amended only in the
fibonacci row to the sequence the code actually produces: the code's
`fibonacci(k+1)` equals the classical `fib(k+2)` (1, 2, 3, 5, …), not
the spec's `fib(k+1)`. -/
def delayTable (k : Nat) (baseDelay : Int) (strategy : Strategy) : Int :=
  match strategy with
  | Strategy.fixed => baseDelay
  | Strategy.exponential => baseDelay * 2 ^ k
  | Strategy.linear => baseDelay * (k + 1)
  | Strategy.fibonacci => baseDelay * (specFib (k + 2) : Int)

/-- C3: the retry gate of both failure handlers is off by one.  At
`retryCount = 0` and `maxRetries = 1` a retryable failure should, by
the claim, schedule a retry (`0 < 1`); the code computes
`retryCount + 1 < maxRetries` and instead marks the job FAILED after a
single attempt. -/
theorem handleFailure_denies_last_allowed_retry :
    RetryManager.isRetryableError "network glitch" = true ∧
    (0 : Nat) < 1 ∧
    (RetryManager.handleFailure { jitterEnabled := false } 0 1000
      { id := 1, status := Status.RUNNING, retryCount := 0, maxRetries := 1 }
      "network glitch" "st").status = Status.FAILED ∧
    (JobExecutor.handleFailure 1000
      { id := 1, status := Status.RUNNING, retryCount := 0, maxRetries := 1 }
      "network glitch" "st").status = Status.FAILED := by
  decide

/-- C4 counterexample: `JobExecutor.handleFailure` (one of the failure
handlers the claim covers) never consults retryability, so a
non-retryable message with retries remaining is re-SCHEDULED rather
than FAILED. -/
theorem executor_handleFailure_schedules_nonretryable :
    (RetryManager.nonRetryable.any fun k => strIncludes (jsToLower "validation failed") k) = true ∧
    (JobExecutor.handleFailure 1000
      { id := 2, status := Status.RUNNING, retryCount := 0, maxRetries := 5 }
      "validation failed" "st").status = Status.SCHEDULED := by
  decide

/-- C4 (amended): `RetryManager.handleFailure` — the failure handler of
the retry-aware worker — marks the job FAILED, never SCHEDULED, for
every message containing a non-retryable keyword, for every
`retryCount` and `maxRetries`. -/
theorem retryManager_nonretryable_always_fails
    (cfg : RetryManager.RetryConfig) (r : ℚ) (now : Int) (j : Job)
    (message stack : String)
    (h : (RetryManager.nonRetryable.any fun k => strIncludes (jsToLower message) k) = true) :
    (RetryManager.handleFailure cfg r now j message stack).status = Status.FAILED := by
  unfold RetryManager.handleFailure RetryManager.isRetryableError
  simp [h]

/-- Witness for the amended C4 theorem at a concrete input. -/
theorem retryManager_nonretryable_always_fails_witness :
    ((RetryManager.nonRetryable.any fun k => strIncludes (jsToLower "validation failed") k) = true) ∧
    (RetryManager.handleFailure { jitterEnabled := false } 0 1000
      { id := 3, status := Status.RUNNING, retryCount := 0, maxRetries := 5 }
      "validation failed" "st").status = Status.FAILED :=
  ⟨by decide,
   retryManager_nonretryable_always_fails { jitterEnabled := false } 0 1000
     { id := 3, status := Status.RUNNING, retryCount := 0, maxRetries := 5 }
     "validation failed" "st" (by decide)⟩

/-- C5: the shipped cron evaluator is a stand-in that never reads the
day-of-week (or day-of-month, or month) field.  For the cron expression
of Sundays at midnight, evaluated from Monday 01:30 UTC
(epoch ms 351000000, 1970-01-05), it returns Tuesday 00:00 UTC
(432000000) — a moment that does not satisfy the day-of-week field 0 —
instead of the next Sunday. -/
theorem getNextCronRun_ignores_day_of_week :
    JobExecutor.getNextCronRun "0 0 * * 0" 351000000 = 432000000 ∧
    jsGetDay 351000000 = 1 ∧
    jsGetDay 432000000 = 2 ∧
    jsGetDay 432000000 ≠ 0 ∧
    JobExecutor.calculateNextRun 351000000
      { id := 9, jobType := JobType.RECURRING, cronExpression := some "0 0 * * 0" }
      = some 432000000 := by
  decide

/-- C7 counterexample: the code's `fibonacci(n)` returns the classical
`fib(n+1)` (it yields 1, 2, 3, 5, …), so at 0-indexed attempt `k = 1`
with `baseDelay = 1000` and jitter disabled the delay is 2000, while
the claim's table gives `min(baseDelay * fib(2), maxRetryDelay) = 1000`
with `fib(1) = fib(2) = 1`. -/
theorem calculateDelay_fibonacci_counterexample :
    RetryManager.calculateDelay 1 1000 3600000 Strategy.fibonacci false (1/5) 0 = 2000 ∧
    min ((1000 : Int) * (specFib 2 : Int)) 3600000 = 1000 ∧
    (2000 : Int) ≠ 1000 := by
  refine ⟨?_, by norm_num [specFib], by norm_num⟩
  show round ((min ((1000 : Int) * (RetryManager.fibonacci 2 : Int)) 3600000 : Int) : ℚ) = 2000
  norm_num [RetryManager.fibonacci, RetryManager.fibLoop, round_intCast]

/-- C8 counterexample: the code checks the classification rules in a
different order than the spec (validation, not-found and handler are
tested before memory, rate-limit and permission), so a message matching
both "memory" and "validation" classifies as VALIDATION_ERROR where the
spec's order gives MEMORY_ERROR; the `JobExecutor` variant lacks the
memory / rate-limit / permission rules altogether. -/
theorem classifyError_deviates_from_spec_order :
    RetryManager.classifyError "memory validation" = "VALIDATION_ERROR" ∧
    specClassifyError "memory validation" = "MEMORY_ERROR" ∧
    RetryManager.classifyError "memory validation" ≠ specClassifyError "memory validation" ∧
    JobExecutor.classifyError "rate limit" = "UNKNOWN_ERROR" := by
  decide

/-- C10: the pre-save hook schedules a new RECURRING job immediately:
status becomes SCHEDULED and `nextRunAt` becomes the current time,
regardless of the job's `cronExpression` or `interval`. -/
theorem preSave_recurring_runs_immediately (now : Int) (j : Job)
    (h1 : j.jobType = JobType.RECURRING) (h2 : j.nextRunAt = none) :
    (JobModel.preSaveSchedule true now j).status = Status.SCHEDULED ∧
    (JobModel.preSaveSchedule true now j).nextRunAt = some now ∧
    ∀ c i,
      (JobModel.preSaveSchedule true now
        { j with cronExpression := c, interval := i }).status = Status.SCHEDULED ∧
      (JobModel.preSaveSchedule true now
        { j with cronExpression := c, interval := i }).nextRunAt = some now := by
  refine ⟨?_, ?_, ?_⟩ <;>
    simp [JobModel.preSaveSchedule, h1, h2]

/-- C8 (amended): `RetryManager.classifyError` implements the spec's
substrings case-insensitively but first-match in the code's order:
timeout; network/econnrefused; validation; not found; handler; memory;
rate limit; permission/forbidden; otherwise unknown. -/
theorem classifyError_first_match_in_code_order (message : String) :
    (strIncludes (jsToLower message) "timeout" = true →
      RetryManager.classifyError message = "TIMEOUT") ∧
    (strIncludes (jsToLower message) "timeout" = false →
      (strIncludes (jsToLower message) "network" || strIncludes (jsToLower message) "econnrefused") = true →
      RetryManager.classifyError message = "NETWORK_ERROR") ∧
    (strIncludes (jsToLower message) "timeout" = false →
      (strIncludes (jsToLower message) "network" || strIncludes (jsToLower message) "econnrefused") = false →
      strIncludes (jsToLower message) "validation" = true →
      RetryManager.classifyError message = "VALIDATION_ERROR") ∧
    (strIncludes (jsToLower message) "timeout" = false →
      (strIncludes (jsToLower message) "network" || strIncludes (jsToLower message) "econnrefused") = false →
      strIncludes (jsToLower message) "validation" = false →
      strIncludes (jsToLower message) "not found" = true →
      RetryManager.classifyError message = "NOT_FOUND") ∧
    (strIncludes (jsToLower message) "timeout" = false →
      (strIncludes (jsToLower message) "network" || strIncludes (jsToLower message) "econnrefused") = false →
      strIncludes (jsToLower message) "validation" = false →
      strIncludes (jsToLower message) "not found" = false →
      strIncludes (jsToLower message) "handler" = true →
      RetryManager.classifyError message = "HANDLER_ERROR") ∧
    (strIncludes (jsToLower message) "timeout" = false →
      (strIncludes (jsToLower message) "network" || strIncludes (jsToLower message) "econnrefused") = false →
      strIncludes (jsToLower message) "validation" = false →
      strIncludes (jsToLower message) "not found" = false →
      strIncludes (jsToLower message) "handler" = false →
      strIncludes (jsToLower message) "memory" = true →
      RetryManager.classifyError message = "MEMORY_ERROR") ∧
    (strIncludes (jsToLower message) "timeout" = false →
      (strIncludes (jsToLower message) "network" || strIncludes (jsToLower message) "econnrefused") = false →
      strIncludes (jsToLower message) "validation" = false →
      strIncludes (jsToLower message) "not found" = false →
      strIncludes (jsToLower message) "handler" = false →
      strIncludes (jsToLower message) "memory" = false →
      strIncludes (jsToLower message) "rate limit" = true →
      RetryManager.classifyError message = "RATE_LIMIT") ∧
    (strIncludes (jsToLower message) "timeout" = false →
      (strIncludes (jsToLower message) "network" || strIncludes (jsToLower message) "econnrefused") = false →
      strIncludes (jsToLower message) "validation" = false →
      strIncludes (jsToLower message) "not found" = false →
      strIncludes (jsToLower message) "handler" = false →
      strIncludes (jsToLower message) "memory" = false →
      strIncludes (jsToLower message) "rate limit" = false →
      (strIncludes (jsToLower message) "permission" || strIncludes (jsToLower message) "forbidden") = true →
      RetryManager.classifyError message = "PERMISSION_ERROR") ∧
    (strIncludes (jsToLower message) "timeout" = false →
      (strIncludes (jsToLower message) "network" || strIncludes (jsToLower message) "econnrefused") = false →
      strIncludes (jsToLower message) "validation" = false →
      strIncludes (jsToLower message) "not found" = false →
      strIncludes (jsToLower message) "handler" = false →
      strIncludes (jsToLower message) "memory" = false →
      strIncludes (jsToLower message) "rate limit" = false →
      (strIncludes (jsToLower message) "permission" || strIncludes (jsToLower message) "forbidden") = false →
      RetryManager.classifyError message = "UNKNOWN_ERROR") := by
  refine ⟨?_, ?_, ?_, ?_, ?_, ?_, ?_, ?_, ?_⟩ <;>
    intros <;> simp [RetryManager.classifyError, *]

/-- Witness for the amended C8 theorem at a concrete message. -/
theorem classifyError_first_match_in_code_order_witness :
    RetryManager.classifyError "out of memory" = "MEMORY_ERROR" :=
  (classifyError_first_match_in_code_order "out of memory").2.2.2.2.2.1
    (by decide) (by decide) (by decide) (by decide) (by decide) (by decide)

/-- The code's `fibonacci` loop computes the classical Fibonacci
sequence shifted by one. -/
theorem fibLoop_eq_specFib (n : Nat) :
    RetryManager.fibLoop n = (specFib (n + 1), specFib (n + 2)) := by
  induction n with
  | zero => simp [RetryManager.fibLoop, specFib]
  | succ k ih => simp [RetryManager.fibLoop, ih, specFib]

theorem fibonacci_eq_specFib (n : Nat) :
    RetryManager.fibonacci n = specFib (n + 1) := by
  unfold RetryManager.fibonacci
  by_cases h : n ≤ 1
  · interval_cases n <;> simp [specFib]
  · rw [if_neg h, fibLoop_eq_specFib]
    have hn : n - 1 + 2 = n + 1 := by omega
    simp [hn]

/-- The code's strategy switch agrees with the amended table. -/
theorem codeDelay_eq_delayTable (k : Nat) (baseDelay : Int) (strategy : Strategy) :
    RetryManager.codeDelay k baseDelay strategy = delayTable k baseDelay strategy := by
  cases strategy <;>
    simp [RetryManager.codeDelay, delayTable, fibonacci_eq_specFib]

/-- With jitter off, `calculateDelay` is the clamped (amended) table. -/
theorem calculateDelay_nojitter (k : Nat) (baseDelay maxDelay : Int)
    (strategy : Strategy) (jitterFactor r : ℚ) :
    RetryManager.calculateDelay k baseDelay maxDelay strategy false jitterFactor r
      = min (delayTable k baseDelay strategy) maxDelay := by
  have h1 : RetryManager.calculateDelay k baseDelay maxDelay strategy false jitterFactor r
      = round ((min (RetryManager.codeDelay k baseDelay strategy) maxDelay : Int) : ℚ) := rfl
  rw [h1, round_intCast, codeDelay_eq_delayTable]

/-- Every row of the amended table is nonnegative for a nonnegative
base delay. -/
theorem delayTable_nonneg (k : Nat) (baseDelay : Int) (strategy : Strategy)
    (hb : 0 ≤ baseDelay) : 0 ≤ delayTable k baseDelay strategy := by
  cases strategy <;> simp [delayTable] <;> positivity

/-- C7 (amended): with jitter disabled `calculateDelay(k)` returns
`min(d, maxRetryDelay)` where `d` follows the claim's table with the
fibonacci row corrected to `fib(k+2)`; with jitter enabled it returns
the clamped value scaled by a factor in
`[1 - jitterFactor, 1 + jitterFactor]` and then rounded to the nearest
integer, and is never negative. -/
theorem calculateDelay_strategy_table_amended
    (k : Nat) (baseDelay maxDelay : Int) (strategy : Strategy) (jitterFactor r : ℚ)
    (hb : 0 ≤ baseDelay) (hm : 0 ≤ maxDelay) (hjf0 : 0 ≤ jitterFactor)
    (hjf1 : jitterFactor ≤ 1) (hr0 : 0 ≤ r) (hr1 : r ≤ 1) :
    RetryManager.calculateDelay k baseDelay maxDelay strategy false jitterFactor r
      = min (delayTable k baseDelay strategy) maxDelay ∧
    ∃ f : ℚ, 1 - jitterFactor ≤ f ∧ f ≤ 1 + jitterFactor ∧
      RetryManager.calculateDelay k baseDelay maxDelay strategy true jitterFactor r
        = round (((min (delayTable k baseDelay strategy) maxDelay : Int) : ℚ) * f) ∧
      0 ≤ RetryManager.calculateDelay k baseDelay maxDelay strategy true jitterFactor r := by
  have hc : (0 : ℚ) ≤ ((min (delayTable k baseDelay strategy) maxDelay : Int) : ℚ) := by
    have := le_min (delayTable_nonneg k baseDelay strategy hb) hm
    exact_mod_cast this
  have hf0 : (0 : ℚ) ≤ 1 + (r * 2 - 1) * jitterFactor := by nlinarith
  have heval :
      RetryManager.calculateDelay k baseDelay maxDelay strategy true jitterFactor r
        = round (((min (delayTable k baseDelay strategy) maxDelay : Int) : ℚ)
            * (1 + (r * 2 - 1) * jitterFactor)) := by
    have h1 : RetryManager.calculateDelay k baseDelay maxDelay strategy true jitterFactor r
        = round (RetryManager.addJitter
            ((min (RetryManager.codeDelay k baseDelay strategy) maxDelay : Int) : ℚ)
            jitterFactor r) := rfl
    rw [h1, codeDelay_eq_delayTable]
    have h2 : RetryManager.addJitter
        ((min (delayTable k baseDelay strategy) maxDelay : Int) : ℚ) jitterFactor r
        = ((min (delayTable k baseDelay strategy) maxDelay : Int) : ℚ)
            * (1 + (r * 2 - 1) * jitterFactor) := by
      unfold RetryManager.addJitter
      rw [max_eq_right (by nlinarith [mul_nonneg hc hf0])]
      ring
    rw [h2]
  refine ⟨calculateDelay_nojitter k baseDelay maxDelay strategy jitterFactor r,
    1 + (r * 2 - 1) * jitterFactor, by nlinarith, by nlinarith, heval, ?_⟩
  rw [heval, round_eq]
  refine Int.le_floor.mpr ?_
  have := mul_nonneg hc hf0
  simp only [Int.cast_zero]
  linarith

/-- Witness for the amended C7 theorem at a concrete configuration. -/
theorem calculateDelay_strategy_table_amended_witness :
    RetryManager.calculateDelay 0 1000 3600000 Strategy.fixed false (1/5) (1/2)
      = min (delayTable 0 1000 Strategy.fixed) 3600000 ∧
    ∃ f : ℚ, 1 - 1/5 ≤ f ∧ f ≤ 1 + 1/5 ∧
      RetryManager.calculateDelay 0 1000 3600000 Strategy.fixed true (1/5) (1/2)
        = round (((min (delayTable 0 1000 Strategy.fixed) 3600000 : Int) : ℚ) * f) ∧
      0 ≤ RetryManager.calculateDelay 0 1000 3600000 Strategy.fixed true (1/5) (1/2) :=
  calculateDelay_strategy_table_amended 0 1000 3600000 Strategy.fixed (1/5) (1/2)
    (by norm_num) (by norm_num) (by norm_num) (by norm_num) (by norm_num) (by norm_num)

theorem optLe_refl (a : Option Int) : JobPicker.optLe a a = true := by
  cases a <;> simp [JobPicker.optLe]

theorem optLe_trans (a b c : Option Int) (h1 : JobPicker.optLe a b = true)
    (h2 : JobPicker.optLe b c = true) : JobPicker.optLe a c = true := by
  cases a <;> cases b <;> cases c <;> simp [JobPicker.optLe] at * <;> omega

theorem optLe_total (a b : Option Int) :
    JobPicker.optLe a b = true ∨ JobPicker.optLe b a = true := by
  cases a <;> cases b <;> simp [JobPicker.optLe] <;> omega

theorem sortLe_refl (a : Job) : JobPicker.sortLe a a = true := by
  simp [JobPicker.sortLe, optLe_refl]

theorem sortLe_trans (a b c : Job) (h1 : JobPicker.sortLe a b = true)
    (h2 : JobPicker.sortLe b c = true) : JobPicker.sortLe a c = true := by
  simp only [JobPicker.sortLe, Bool.or_eq_true, Bool.and_eq_true,
    decide_eq_true_eq] at h1 h2 ⊢
  rcases h1 with h1 | ⟨h1, h1o⟩ <;> rcases h2 with h2 | ⟨h2, h2o⟩
  · exact Or.inl (lt_trans h1 h2)
  · exact Or.inl (by omega)
  · exact Or.inl (by omega)
  · exact Or.inr ⟨by omega, optLe_trans _ _ _ h1o h2o⟩

theorem sortLe_total (a b : Job) :
    JobPicker.sortLe a b = true ∨ JobPicker.sortLe b a = true := by
  simp only [JobPicker.sortLe, Bool.or_eq_true, Bool.and_eq_true, decide_eq_true_eq]
  rcases lt_trichotomy a.priority b.priority with h | h | h
  · exact Or.inl (Or.inl h)
  · rcases optLe_total a.nextRunAt b.nextRunAt with ho | ho
    · exact Or.inl (Or.inr ⟨h, ho⟩)
    · exact Or.inr (Or.inr ⟨h.symm, ho⟩)
  · exact Or.inr (Or.inl h)

theorem selectFirstMin_eq_none (l : List Job) :
    JobPicker.selectFirstMin l = none ↔ l = [] := by
  cases l with
  | nil => simp [JobPicker.selectFirstMin]
  | cons j rest =>
    simp only [JobPicker.selectFirstMin]
    cases JobPicker.selectFirstMin rest <;> simp <;> split <;> simp

theorem selectFirstMin_mem (l : List Job) (m : Job)
    (h : JobPicker.selectFirstMin l = some m) : m ∈ l := by
  induction l generalizing m with
  | nil => simp [JobPicker.selectFirstMin] at h
  | cons j rest ih =>
    cases hsel : JobPicker.selectFirstMin rest with
    | none =>
      simp only [JobPicker.selectFirstMin, hsel, Option.some.injEq] at h
      exact h ▸ List.mem_cons_self j rest
    | some m2 =>
      simp only [JobPicker.selectFirstMin, hsel] at h
      by_cases hle : JobPicker.sortLe j m2 = true
      · rw [if_pos hle] at h
        simp only [Option.some.injEq] at h
        exact h ▸ List.mem_cons_self j rest
      · rw [if_neg hle] at h
        simp only [Option.some.injEq] at h
        exact List.mem_cons_of_mem j (h ▸ ih m2 hsel)

theorem selectFirstMin_le (l : List Job) (m : Job)
    (h : JobPicker.selectFirstMin l = some m) :
    ∀ x ∈ l, JobPicker.sortLe m x = true := by
  induction l generalizing m with
  | nil => simp [JobPicker.selectFirstMin] at h
  | cons j rest ih =>
    cases hsel : JobPicker.selectFirstMin rest with
    | none =>
      simp only [JobPicker.selectFirstMin, hsel, Option.some.injEq] at h
      have hnil := (selectFirstMin_eq_none rest).1 hsel
      subst hnil
      intro x hx
      simp only [List.mem_singleton] at hx
      rw [← h, hx]
      exact sortLe_refl j
    | some m2 =>
      simp only [JobPicker.selectFirstMin, hsel] at h
      by_cases hle : JobPicker.sortLe j m2 = true
      · rw [if_pos hle] at h
        simp only [Option.some.injEq] at h
        rw [← h]
        intro x hx
        rcases List.mem_cons.1 hx with hx | hx
        · exact hx ▸ sortLe_refl j
        · exact sortLe_trans j m2 x hle (ih m2 hsel x hx)
      · rw [if_neg hle] at h
        simp only [Option.some.injEq] at h
        rw [← h]
        intro x hx
        rcases List.mem_cons.1 hx with hx | hx
        · subst hx
          rcases sortLe_total x m2 with ht | ht
          · exact absurd ht hle
          · exact ht
        · exact ih m2 hsel x hx

theorem dueMatch_iff (now st : Int) (j : Job) :
    JobPicker.dueMatch now st j = true ↔
      (j.status = Status.SCHEDULED ∧ (∃ t, j.nextRunAt = some t ∧ t ≤ now) ∧
       j.isActive = true ∧
       (j.lockedBy = none ∨ j.lockedAt = none ∨
        ∃ la, j.lockedAt = some la ∧ la < st)) := by
  cases hn : j.nextRunAt <;> cases hb : j.lockedBy <;> cases ha : j.lockedAt <;>
    simp [JobPicker.dueMatch, hn, hb, ha, and_assoc]

/-- C2: `pickOne` claims exactly the jobs the spec says it does: the
filter matches iff status = SCHEDULED, `nextRunAt <= now`, `isActive`,
and the lock is absent or stale; among matches the claimed job is
minimal under (priority, nextRunAt); the claimed record is updated to
QUEUED/`lockedBy`/`lockedAt` and returned; with no match nothing is
returned and the store is unchanged. -/
theorem pickOne_claims_exactly_due_jobs (workerId : String)
    (lockTimeout now : Int) (store : List Job) :
    (∀ j, JobPicker.dueMatch now (now - lockTimeout) j = true ↔
      (j.status = Status.SCHEDULED ∧ (∃ t, j.nextRunAt = some t ∧ t ≤ now) ∧
       j.isActive = true ∧
       (j.lockedBy = none ∨ j.lockedAt = none ∨
        ∃ la, j.lockedAt = some la ∧ la < now - lockTimeout))) ∧
    ((JobPicker.pickOne workerId lockTimeout now store).1 = none →
      (∀ j ∈ store, JobPicker.dueMatch now (now - lockTimeout) j = false) ∧
      (JobPicker.pickOne workerId lockTimeout now store).2 = store) ∧
    (∀ c, (JobPicker.pickOne workerId lockTimeout now store).1 = some c →
      ∃ j, j ∈ store ∧ JobPicker.dueMatch now (now - lockTimeout) j = true ∧
        c = { j with status := Status.QUEUED, lockedBy := some workerId,
                     lockedAt := some now } ∧
        (∀ k ∈ store, JobPicker.dueMatch now (now - lockTimeout) k = true →
          j.priority < k.priority ∨ (j.priority = k.priority ∧
            ∀ tj tk, j.nextRunAt = some tj → k.nextRunAt = some tk → tj ≤ tk)) ∧
        (JobPicker.pickOne workerId lockTimeout now store).2
          = updateById store j.id (fun y =>
              { y with status := Status.QUEUED, lockedBy := some workerId,
                       lockedAt := some now })) := by
  refine ⟨fun j => dueMatch_iff now (now - lockTimeout) j, ?_, ?_⟩
  · intro h
    cases hsel : JobPicker.selectFirstMin
        (store.filter (JobPicker.dueMatch now (now - lockTimeout))) with
    | none =>
      have hnil := (selectFirstMin_eq_none _).1 hsel
      constructor
      · intro j hj
        by_contra hc
        have hdt : JobPicker.dueMatch now (now - lockTimeout) j = true := by
          revert hc
          cases JobPicker.dueMatch now (now - lockTimeout) j <;> simp
        have : j ∈ store.filter (JobPicker.dueMatch now (now - lockTimeout)) :=
          List.mem_filter.2 ⟨hj, hdt⟩
        rw [hnil] at this
        simp at this
      · simp only [JobPicker.pickOne, hsel]
    | some m =>
      exfalso
      simp only [JobPicker.pickOne, hsel] at h
      simp at h
  · intro c hc
    cases hsel : JobPicker.selectFirstMin
        (store.filter (JobPicker.dueMatch now (now - lockTimeout))) with
    | none =>
      exfalso
      simp only [JobPicker.pickOne, hsel] at hc
      simp at hc
    | some m =>
      have hmem := List.mem_filter.1 (selectFirstMin_mem _ _ hsel)
      have hle := selectFirstMin_le _ _ hsel
      have hcm : c = { m with status := Status.QUEUED, lockedBy := some workerId,
                              lockedAt := some now } := by
        simp only [JobPicker.pickOne, hsel, Option.some.injEq] at hc
        exact hc.symm
      refine ⟨m, hmem.1, hmem.2, hcm, ?_, ?_⟩
      · intro k hk hdk
        have := hle k (List.mem_filter.2 ⟨hk, hdk⟩)
        simp only [JobPicker.sortLe, Bool.or_eq_true, Bool.and_eq_true,
          decide_eq_true_eq] at this
        rcases this with h | ⟨h, ho⟩
        · exact Or.inl h
        · refine Or.inr ⟨h, ?_⟩
          intro tj tk htj htk
          rw [htj, htk] at ho
          simpa [JobPicker.optLe] using ho
      · simp only [JobPicker.pickOne, hsel]

/-- Witness for C2: one due job in the store, claimed as stated. -/
theorem pickOne_claims_exactly_due_jobs_witness :
    ∃ j, j ∈ ([{ id := 5, status := Status.SCHEDULED, nextRunAt := some 10,
                 priority := 3 }] : List Job) ∧
      JobPicker.dueMatch 100 (100 - 300000) j = true ∧
      ({ id := 5, status := Status.QUEUED, nextRunAt := some 10, priority := 3,
         lockedBy := some "w1", lockedAt := some 100 } : Job)
        = { j with status := Status.QUEUED, lockedBy := some "w1",
                   lockedAt := some 100 } ∧
      (∀ k ∈ ([{ id := 5, status := Status.SCHEDULED, nextRunAt := some 10,
                 priority := 3 }] : List Job),
        JobPicker.dueMatch 100 (100 - 300000) k = true →
          j.priority < k.priority ∨ (j.priority = k.priority ∧
            ∀ tj tk, j.nextRunAt = some tj → k.nextRunAt = some tk → tj ≤ tk)) ∧
      (JobPicker.pickOne "w1" 300000 100
          [{ id := 5, status := Status.SCHEDULED, nextRunAt := some 10,
             priority := 3 }]).2
        = updateById
            [{ id := 5, status := Status.SCHEDULED, nextRunAt := some 10,
               priority := 3 }] j.id
            (fun y => { y with status := Status.QUEUED, lockedBy := some "w1",
                               lockedAt := some 100 }) :=
  (pickOne_claims_exactly_due_jobs "w1" 300000 100
      [{ id := 5, status := Status.SCHEDULED, nextRunAt := some 10,
         priority := 3 }]).2.2
    { id := 5, status := Status.QUEUED, nextRunAt := some 10, priority := 3,
      lockedBy := some "w1", lockedAt := some 100 }
    (by decide)

/-- One `pickOne` step by any worker at any time preserves the claim a
worker holds (a QUEUED document is never matched, never modified, and
never returned by a pick). -/
theorem pickOne_step_keeps_claim (w1 : String) (jid : Nat) (w : String)
    (lt t : Int) (store : List Job)
    (hQ : ∀ x ∈ store, x.id = jid → x.status = Status.QUEUED ∧ x.lockedBy = some w1) :
    (∀ x ∈ (JobPicker.pickOne w lt t store).2, x.id = jid →
       x.status = Status.QUEUED ∧ x.lockedBy = some w1) ∧
    (∀ k s2, JobPicker.pickOne w lt t store = (some k, s2) → k.id ≠ jid) := by
  cases hsel : JobPicker.selectFirstMin
      (store.filter (JobPicker.dueMatch t (t - lt))) with
  | none =>
    constructor
    · intro x hx
      simp only [JobPicker.pickOne, hsel] at hx
      exact hQ x hx
    · intro k s2 hk
      simp [JobPicker.pickOne, hsel, Prod.mk.injEq] at hk
  | some m =>
    have hmem := List.mem_filter.1 (selectFirstMin_mem _ _ hsel)
    have hmS : m.status = Status.SCHEDULED := ((dueMatch_iff _ _ m).1 hmem.2).1
    have hmid : m.id ≠ jid := by
      intro he
      have := (hQ m hmem.1 he).1
      rw [hmS] at this
      exact absurd this (by simp)
    constructor
    · intro x hx hxid
      simp only [JobPicker.pickOne, hsel] at hx
      obtain ⟨y, hy, hyx⟩ := List.mem_map.1 hx
      by_cases hyid : y.id = m.id
      · exfalso
        rw [if_pos hyid] at hyx
        apply hmid
        rw [← hxid, ← hyx]
        exact hyid.symm
      · rw [if_neg hyid] at hyx
        exact hQ x (hyx ▸ hy) hxid
    · intro k s2 hk
      simp only [JobPicker.pickOne, hsel, Prod.mk.injEq, Option.some.injEq] at hk
      rw [← hk.1]
      exact hmid

/-- The claim survives any sequence of `pickOne` steps. -/
theorem applyPicks_keeps_claim (w1 : String) (jid : Nat) (lt : Int)
    (trace : List (String × Int)) (store : List Job)
    (hQ : ∀ x ∈ store, x.id = jid → x.status = Status.QUEUED ∧ x.lockedBy = some w1) :
    ∀ x ∈ JobPicker.applyPicks lt trace store, x.id = jid →
      x.status = Status.QUEUED ∧ x.lockedBy = some w1 := by
  induction trace generalizing store with
  | nil => simpa [JobPicker.applyPicks] using hQ
  | cons p rest ih =>
    simp only [JobPicker.applyPicks, List.foldl_cons] at *
    exact ih _ ((pickOne_step_keeps_claim w1 jid p.1 lt p.2 store hQ).1)

/-- C1: at most one worker holds a given job.  Once a worker's `pickOne`
succeeds on a job, then after any further sequence of `pickOne` steps by
any workers at any times, every copy of that job still shows
`status = QUEUED` and `lockedBy` equal to the claiming worker (so no
other worker can observe itself as `lockedBy`), and no `pickOne` — by
any worker, even after the lock would have gone stale — returns a job
with that id.  This is stronger than the claim, which only requires
exclusion until the lock is cleared or stale. -/
theorem pickOne_at_most_one_owner (w1 : String) (lockTimeout now : Int)
    (store s1 : List Job) (claimed : Job)
    (h : JobPicker.pickOne w1 lockTimeout now store = (some claimed, s1)) :
    ∀ trace : List (String × Int),
      (∀ x ∈ JobPicker.applyPicks lockTimeout trace s1, x.id = claimed.id →
        x.status = Status.QUEUED ∧ x.lockedBy = some w1 ∧
        ∀ w2, x.lockedBy = some w2 → w2 = w1) ∧
      (∀ w2 t2 k s2,
        JobPicker.pickOne w2 lockTimeout t2 (JobPicker.applyPicks lockTimeout trace s1)
          = (some k, s2) → k.id ≠ claimed.id) := by
  have hbase : ∀ x ∈ s1, x.id = claimed.id →
      x.status = Status.QUEUED ∧ x.lockedBy = some w1 := by
    cases hsel : JobPicker.selectFirstMin
        (store.filter (JobPicker.dueMatch now (now - lockTimeout))) with
    | none =>
      exfalso
      simp [JobPicker.pickOne, hsel, Prod.mk.injEq] at h
    | some m =>
      simp only [JobPicker.pickOne, hsel, Prod.mk.injEq, Option.some.injEq] at h
      obtain ⟨hcl, hs1⟩ := h
      intro x hx hxid
      rw [← hs1] at hx
      obtain ⟨y, hy, hyx⟩ := List.mem_map.1 hx
      by_cases hyid : y.id = m.id
      · rw [if_pos hyid] at hyx
        rw [← hyx]
        exact ⟨rfl, rfl⟩
      · exfalso
        rw [if_neg hyid] at hyx
        apply hyid
        rw [hyx, hxid, ← hcl]
  intro trace
  have hinv := applyPicks_keeps_claim w1 claimed.id lockTimeout trace s1 hbase
  refine ⟨?_, ?_⟩
  · intro x hx hxid
    obtain ⟨h1, h2⟩ := hinv x hx hxid
    refine ⟨h1, h2, ?_⟩
    intro w2 hw2
    rw [h2] at hw2
    injection hw2 with e
    exact e.symm
  · intro w2 t2 k s2 hp
    exact (pickOne_step_keeps_claim w1 claimed.id w2 lockTimeout t2 _ hinv).2 k s2 hp

/-- Witness for C1: a concrete successful claim, after which a second
worker's pick step leaves the claimed record QUEUED and owned by the
first worker. -/
theorem pickOne_at_most_one_owner_witness :
    ({ id := 5, status := Status.QUEUED, nextRunAt := some 10, priority := 3,
       lockedBy := some "w1", lockedAt := some 100 } : Job).status
        = Status.QUEUED ∧
    ({ id := 5, status := Status.QUEUED, nextRunAt := some 10, priority := 3,
       lockedBy := some "w1", lockedAt := some 100 } : Job).lockedBy
        = some "w1" ∧
    ∀ w2, ({ id := 5, status := Status.QUEUED, nextRunAt := some 10, priority := 3,
             lockedBy := some "w1", lockedAt := some 100 } : Job).lockedBy
        = some w2 → w2 = "w1" :=
  ((pickOne_at_most_one_owner "w1" 300000 100
      [{ id := 5, status := Status.SCHEDULED, nextRunAt := some 10, priority := 3 }]
      [{ id := 5, status := Status.QUEUED, nextRunAt := some 10, priority := 3,
         lockedBy := some "w1", lockedAt := some 100 }]
      { id := 5, status := Status.QUEUED, nextRunAt := some 10, priority := 3,
        lockedBy := some "w1", lockedAt := some 100 }
      (by decide) [("w2", 200)]).1)
    { id := 5, status := Status.QUEUED, nextRunAt := some 10, priority := 3,
      lockedBy := some "w1", lockedAt := some 100 }
    (by decide) (by decide)

/-- C9: `recoverStaleJobs` updates exactly the stale locked QUEUED or
RUNNING jobs — resetting them to SCHEDULED with the lock cleared and
`retryCount` incremented — leaves every other job unchanged, and
matches no record on an immediately repeated run, so a second sweep is
the identity. -/
theorem recoverStaleJobs_exact_and_idempotent (threshold now : Int)
    (store : List Job) :
    (∀ j, JobPicker.staleMatch (now - threshold) j = true ↔
      ((j.status = Status.QUEUED ∨ j.status = Status.RUNNING) ∧
       j.lockedBy ≠ none ∧
       ∃ la, j.lockedAt = some la ∧ la < now - threshold)) ∧
    (∀ j ∈ store, JobPicker.staleMatch (now - threshold) j = true →
      { j with status := Status.SCHEDULED, lockedBy := none, lockedAt := none,
               retryCount := j.retryCount + 1 }
        ∈ JobPicker.recoverStaleJobs threshold now store) ∧
    (∀ j ∈ store, JobPicker.staleMatch (now - threshold) j = false →
      j ∈ JobPicker.recoverStaleJobs threshold now store) ∧
    (∀ j ∈ JobPicker.recoverStaleJobs threshold now store,
      JobPicker.staleMatch (now - threshold) j = false) ∧
    JobPicker.recoverStaleJobs threshold now
        (JobPicker.recoverStaleJobs threshold now store)
      = JobPicker.recoverStaleJobs threshold now store := by
  refine ⟨?_, ?_, ?_, ?_, ?_⟩
  · intro j
    cases ha : j.lockedAt <;> cases hb : j.lockedBy <;>
      simp [JobPicker.staleMatch, ha, hb, and_assoc]
  · intro j hj hm
    have : (fun x => if JobPicker.staleMatch (now - threshold) x then
        { x with status := Status.SCHEDULED, lockedBy := none, lockedAt := none,
                 retryCount := x.retryCount + 1 } else x) j
        = { j with status := Status.SCHEDULED, lockedBy := none, lockedAt := none,
                   retryCount := j.retryCount + 1 } := by
      simp [hm]
    rw [← this]
    exact List.mem_map_of_mem _ hj
  · intro j hj hm
    have : (fun x => if JobPicker.staleMatch (now - threshold) x then
        { x with status := Status.SCHEDULED, lockedBy := none, lockedAt := none,
                 retryCount := x.retryCount + 1 } else x) j = j := by
      simp [hm]
    rw [← this]
    exact List.mem_map_of_mem _ hj
  · intro j hj
    obtain ⟨y, hy, hyj⟩ := List.mem_map.1 hj
    by_cases hsy : JobPicker.staleMatch (now - threshold) y = true
    · rw [if_pos hsy] at hyj
      rw [← hyj]
      simp [JobPicker.staleMatch]
    · rw [if_neg hsy] at hyj
      rw [← hyj]
      revert hsy
      cases JobPicker.staleMatch (now - threshold) y <;> simp
  · simp only [JobPicker.recoverStaleJobs]
    rw [List.map_map]
    apply List.map_congr_left
    intro a _
    by_cases hsa : JobPicker.staleMatch (now - threshold) a = true
    · simp only [Function.comp_apply, if_pos hsa]
      rw [if_neg]
      simp [JobPicker.staleMatch]
    · simp only [Function.comp_apply, if_neg hsa]

/-- Witness for C9: a stale RUNNING job is reset by the sweep. -/
theorem recoverStaleJobs_exact_and_idempotent_witness :
    ({ ({ id := 7, status := Status.RUNNING, lockedBy := some "w",
          lockedAt := some 10 } : Job) with
       status := Status.SCHEDULED, lockedBy := none, lockedAt := none,
       retryCount := ({ id := 7, status := Status.RUNNING, lockedBy := some "w",
                        lockedAt := some 10 } : Job).retryCount + 1 } : Job) ∈
      JobPicker.recoverStaleJobs 30 100
        [{ id := 7, status := Status.RUNNING, lockedBy := some "w",
           lockedAt := some 10 }] :=
  (recoverStaleJobs_exact_and_idempotent 30 100
      [{ id := 7, status := Status.RUNNING, lockedBy := some "w",
         lockedAt := some 10 }]).2.1
    { id := 7, status := Status.RUNNING, lockedBy := some "w", lockedAt := some 10 }
    (by simp) (by decide)

/-- C6: dependency gating.  `markAsCompleted` transitions every WAITING
dependent of the completed job to SCHEDULED with `nextRunAt = now` and
leaves every other non-parent document unchanged; `markAsFailed`
transitions WAITING dependents to BLOCKED exactly when the failure is
permanent (no retry possible after the increment) and touches no other
document otherwise; and no other engine operation — release,
releaseAll, the stale sweep, a by-id executor write to another job, or
a pick — moves an (unlocked) WAITING job out of WAITING. -/
theorem waiting_children_gated (now : Int) (res : String) (duration : Int)
    (parent : Job) (store : List Job) (message stack : String) :
    (∀ x ∈ store, x.id ≠ parent.id → x.dependsOnJobId = some parent.id →
      x.status = Status.WAITING →
      { x with status := Status.SCHEDULED, nextRunAt := some now }
        ∈ JobModel.markAsCompleted now res duration parent store) ∧
    (∀ x ∈ store, x.id ≠ parent.id →
      ¬(x.dependsOnJobId = some parent.id ∧ x.status = Status.WAITING) →
      x ∈ JobModel.markAsCompleted now res duration parent store) ∧
    (parent.maxRetries ≤ parent.retryCount + 1 →
      ∀ x ∈ store, x.id ≠ parent.id → x.dependsOnJobId = some parent.id →
        x.status = Status.WAITING →
        { x with status := Status.BLOCKED }
          ∈ JobModel.markAsFailed now parent message stack store) ∧
    (parent.retryCount + 1 < parent.maxRetries →
      ∀ x ∈ store, x.id ≠ parent.id →
        x ∈ JobModel.markAsFailed now parent message stack store) ∧
    (∀ x ∈ store, x.status = Status.WAITING → x.lockedBy = none →
      (∀ w jid, x ∈ JobPicker.release w jid store) ∧
      (∀ w, x ∈ JobPicker.releaseAll w store) ∧
      (∀ th t, x ∈ JobPicker.recoverStaleJobs th t store) ∧
      (∀ targetId f, targetId ≠ x.id → x ∈ updateById store targetId f) ∧
      (∀ w lt t, (∀ y ∈ store, y.id = x.id → y = x) →
        x ∈ (JobPicker.pickOne w lt t store).2)) := by
  refine ⟨?_, ?_, ?_, ?_, ?_⟩
  · intro x hx hxid hdep hw
    have hid : (if x.id = parent.id then
        (fun _ => JobModel.completedDoc now res duration parent) x else x) = x :=
      if_neg hxid
    have hx2 : x ∈ updateById store parent.id
        (fun _ => JobModel.completedDoc now res duration parent) := by
      rw [← hid]
      exact List.mem_map_of_mem _ hx
    have hstep : (fun y => if y.dependsOnJobId == some parent.id
          && y.status == Status.WAITING then
        { y with status := Status.SCHEDULED, nextRunAt := some now } else y) x
        = { x with status := Status.SCHEDULED, nextRunAt := some now } := by
      simp [hdep, hw]
    unfold JobModel.markAsCompleted
    rw [← hstep]
    exact List.mem_map_of_mem _ hx2
  · intro x hx hxid hnot
    have hid : (if x.id = parent.id then
        (fun _ => JobModel.completedDoc now res duration parent) x else x) = x :=
      if_neg hxid
    have hx2 : x ∈ updateById store parent.id
        (fun _ => JobModel.completedDoc now res duration parent) := by
      rw [← hid]
      exact List.mem_map_of_mem _ hx
    have hcond : (x.dependsOnJobId == some parent.id
        && x.status == Status.WAITING) = false := by
      cases hdp : (x.dependsOnJobId == some parent.id) with
      | false => simp
      | true =>
        have hdep2 : x.dependsOnJobId = some parent.id := by
          simpa [beq_iff_eq] using hdp
        have hws : x.status ≠ Status.WAITING := fun hww => hnot ⟨hdep2, hww⟩
        simp [hws]
    have hstep : (fun y => if y.dependsOnJobId == some parent.id
          && y.status == Status.WAITING then
        { y with status := Status.SCHEDULED, nextRunAt := some now } else y) x = x := by
      simp [hcond]
    unfold JobModel.markAsCompleted
    rw [← hstep]
    exact List.mem_map_of_mem _ hx2
  · intro hperm x hx hxid hdep hw
    have hcr : JobModel.canRetry (JobModel.preFailDoc now parent message stack)
        = false := by
      simp only [JobModel.canRetry, JobModel.preFailDoc, decide_eq_false_iff_not]
      omega
    have hfd : JobModel.failedDoc now parent message stack
        = { JobModel.preFailDoc now parent message stack with
            status := Status.FAILED } := by
      simp [JobModel.failedDoc, hcr]
    unfold JobModel.markAsFailed
    rw [hfd]
    simp only [beq_self_eq_true, if_true]
    have hx2 : x ∈ updateById store parent.id (fun _ =>
        { JobModel.preFailDoc now parent message stack with
          status := Status.FAILED }) := by
      have hone : (if x.id = parent.id then
          (fun _ => ({ JobModel.preFailDoc now parent message stack with
            status := Status.FAILED } : Job)) x else x) = x := if_neg hxid
      rw [← hone]
      exact List.mem_map_of_mem _ hx
    have hstep : (fun y => if y.dependsOnJobId == some parent.id
          && y.status == Status.WAITING then
        { y with status := Status.BLOCKED } else y) x
        = { x with status := Status.BLOCKED } := by
      simp [hdep, hw]
    rw [← hstep]
    exact List.mem_map_of_mem _ hx2
  · intro hret x hx hxid
    have hcr : JobModel.canRetry (JobModel.preFailDoc now parent message stack)
        = true := by
      simp only [JobModel.canRetry, JobModel.preFailDoc, decide_eq_true_eq]
      omega
    have hfd : JobModel.failedDoc now parent message stack
        = { JobModel.preFailDoc now parent message stack with
            status := Status.SCHEDULED,
            nextRetryAt := some (now + JobModel.nextRetryDelay
              (JobModel.preFailDoc now parent message stack)),
            nextRunAt := some (now + JobModel.nextRetryDelay
              (JobModel.preFailDoc now parent message stack)) } := by
      simp [JobModel.failedDoc, hcr]
    unfold JobModel.markAsFailed
    rw [hfd]
    have hfs : ((Status.SCHEDULED == Status.FAILED) : Bool) = false := by decide
    simp only [hfs, Bool.false_eq_true, if_false]
    refine List.mem_map.2 ⟨x, hx, ?_⟩
    exact if_neg hxid
  · intro x hx hw hlock
    refine ⟨?_, ?_, ?_, ?_, ?_⟩
    · intro w jid
      have : (if x.id = jid && x.lockedBy == some w then
          { x with status := Status.SCHEDULED, lockedBy := none, lockedAt := none }
          else x) = x := by
        simp [hlock]
      rw [← this]
      exact List.mem_map_of_mem _ hx
    · intro w
      have : (if x.lockedBy == some w then
          { x with status := Status.SCHEDULED, lockedBy := none, lockedAt := none }
          else x) = x := by
        simp [hlock]
      rw [← this]
      exact List.mem_map_of_mem _ hx
    · intro th t
      have : (if JobPicker.staleMatch (t - th) x = true then
          { x with status := Status.SCHEDULED, lockedBy := none, lockedAt := none,
                   retryCount := x.retryCount + 1 } else x) = x := by
        rw [if_neg]
        simp [JobPicker.staleMatch, hw]
      simp only [JobPicker.recoverStaleJobs]
      rw [← this]
      exact List.mem_map_of_mem _ hx
    · intro targetId f htne
      have : (if x.id = targetId then f x else x) = x :=
        if_neg (fun he => htne he.symm)
      rw [← this]
      exact List.mem_map_of_mem _ hx
    · intro w lt t huniq
      cases hsel : JobPicker.selectFirstMin
          (store.filter (JobPicker.dueMatch t (t - lt))) with
      | none =>
        simp only [JobPicker.pickOne, hsel]
        exact hx
      | some m =>
        have hmem := List.mem_filter.1 (selectFirstMin_mem _ _ hsel)
        have hmS : m.status = Status.SCHEDULED := ((dueMatch_iff _ _ m).1 hmem.2).1
        have hmx : m.id ≠ x.id := by
          intro he
          have := huniq m hmem.1 he
          rw [this, hw] at hmS
          exact absurd hmS (by simp)
        simp only [JobPicker.pickOne, hsel]
        have : (if x.id = m.id then
            { x with status := Status.QUEUED, lockedBy := some w,
                     lockedAt := some t } else x) = x :=
          if_neg (fun he => hmx he.symm)
        rw [← this]
        exact List.mem_map_of_mem _ hx

/-- Witness for C6: a WAITING child of a completed parent is released. -/
theorem waiting_children_gated_witness :
    ({ ({ id := 2, status := Status.WAITING, dependsOnJobId := some 1 } : Job) with
       status := Status.SCHEDULED, nextRunAt := some (100 : Int) } : Job) ∈
      JobModel.markAsCompleted 100 "ok" 5
        { id := 1, status := Status.RUNNING }
        [{ id := 1, status := Status.RUNNING },
         { id := 2, status := Status.WAITING, dependsOnJobId := some 1 }] :=
  (waiting_children_gated 100 "ok" 5 { id := 1, status := Status.RUNNING }
      [{ id := 1, status := Status.RUNNING },
       { id := 2, status := Status.WAITING, dependsOnJobId := some 1 }]
      "m" "s").1
    { id := 2, status := Status.WAITING, dependsOnJobId := some 1 }
    (by simp) (by decide) (by decide) (by decide)

/-- Witness for C10 at a concrete recurring job. -/
theorem preSave_recurring_runs_immediately_witness :
    (JobModel.preSaveSchedule true 777
      { id := 4, jobType := JobType.RECURRING, interval := some 5000 }).status
        = Status.SCHEDULED ∧
    (JobModel.preSaveSchedule true 777
      { id := 4, jobType := JobType.RECURRING, interval := some 5000 }).nextRunAt
        = some 777 :=
  ⟨(preSave_recurring_runs_immediately 777
      { id := 4, jobType := JobType.RECURRING, interval := some 5000 }
      (by decide) (by decide)).1,
   (preSave_recurring_runs_immediately 777
      { id := 4, jobType := JobType.RECURRING, interval := some 5000 }
      (by decide) (by decide)).2.1⟩

end Chronos
